import Mathlib

/-!
Verification of the resume-parser pipeline (resume_parser.py, app.py).

The Python source is shallowly embedded: pure string manipulation is
translated directly; every call to an external collaborator (pdfplumber,
pytesseract, the generative-model endpoint, the Twilio download, the
Google-Sheets append) is replaced by an explicit oracle argument carrying
that collaborator's outcome, so each source function becomes a total Lean
function of its inputs and oracle outcomes.  Python `str.strip` / `lower`
/ slicing and the concrete regular expressions of the source are modelled
character-by-character on `List Char`.
-/

/-- Python whitespace (the set stripped by `str.strip` and matched by the
regex class `\s`): space, tab, newline, carriage return, vertical tab,
form feed. -/
def isPyWs (c : Char) : Bool :=
  c = ' ' || c = '\t' || c = '\n' || c = '\r' || c = '\x0b' || c = '\x0c'

/-- Left part of Python `str.strip`. -/
def stripL (l : List Char) : List Char := l.dropWhile isPyWs

/-- Right part of Python `str.strip`. -/
def stripR (l : List Char) : List Char := (l.reverse.dropWhile isPyWs).reverse

/-- Python `str.strip` on a character list. -/
def pyStripList (l : List Char) : List Char := stripR (stripL l)

/-- Python `str.strip`. -/
def pyStrip (s : String) : String := ⟨pyStripList s.data⟩

/-- Python `str.lower` (ASCII behaviour, which is all the source exercises). -/
def lowerStr (s : String) : String := ⟨s.data.map Char.toLower⟩

/-- Python slicing `s[:n]`. -/
def pyTake (n : Nat) (s : String) : String := ⟨s.data.take n⟩

/-- `startsWithL needle hay`: does `hay` begin with `needle`?  (Python
`str.startswith`, and the anchored head of a regex literal.) -/
def startsWithL : List Char → List Char → Bool
  | [], _ => true
  | _ :: _, [] => false
  | n :: ns, h :: hs => n == h && startsWithL ns hs

/-- `isSubstrL needle hay`: Python's `needle in hay` on strings. -/
def isSubstrL (n : List Char) : List Char → Bool
  | [] => startsWithL n []
  | h :: hs => startsWithL n (h :: hs) || isSubstrL n hs

/-- `extract_text_from_pdf` (resume_parser.py lines 28-60).  Oracle
arguments: `openOk` is false when pdfplumber raises (the outer `except`
makes the result empty); `pages` are the per-page `page.extract_text() or
""` results, concatenated with no separator; `ocrTexts` are the
per-page OCR strings produced for `pdf_to_images` output (`[]` models
`pdf_to_images` returning no images, which skips OCR); `ocrOk` is false
when `pytesseract` raises during the OCR loop (again caught by the outer
`except`).  When the accumulated direct text strips to fewer than 20
characters the OCR text is appended (`text += img_text`), and the final
result is always `text.strip()`. -/
def extract_text_from_pdf (openOk : Bool) (pages : List String)
    (ocrTexts : List String) (ocrOk : Bool) : String :=
  if openOk then
    let text := String.join pages
    if (pyStrip text).length < 20 then
      if ocrTexts.isEmpty then pyStrip text
      else if ocrOk then pyStrip (text ++ String.join ocrTexts)
      else ""
    else pyStrip text
  else ""

/-- `extract_text_from_image` (resume_parser.py lines 62-88).  `att1` is
the first OCR attempt's output (`none` = `Image.open`/`pytesseract`
raised, caught, result empty); when the first attempt strips to fewer
than 10 characters the retry with `--oem 3 --psm 6` runs and its output
`att2` unconditionally overwrites `text`; the result is `text.strip()`. -/
def extract_text_from_image (att1 att2 : Option String) : String :=
  match att1 with
  | none => ""
  | some t1 =>
    if (pyStrip t1).length < 10 then
      match att2 with
      | none => ""
      | some t2 => pyStrip t2
    else pyStrip t1

/-- A parsed model response: a JSON-style mapping from string keys to
string values, as produced by `json.loads` on the object shapes this
program requests (Python preserves insertion order and overwrites
duplicate keys, see `upsert`). -/
abbrev ResumeRecord := List (String × String)

/-- Insert a key/value pair the way a Python `dict` does: overwrite an
existing key in place, otherwise append. -/
def upsert (m : ResumeRecord) (k v : String) : ResumeRecord :=
  match m with
  | [] => [(k, v)]
  | (k', v') :: rest => if k' = k then (k, v) :: rest else (k', v') :: upsert rest k v

/-- Python `dict.get(k, dflt)`. -/
def pyGet (d : ResumeRecord) (k dflt : String) : String :=
  match d with
  | [] => dflt
  | (k', v) :: rest => if k' = k then v else pyGet rest k dflt

/-- JSON whitespace accepted by `json.loads` between tokens. -/
def isJsonWs (c : Char) : Bool := c = ' ' || c = '\t' || c = '\n' || c = '\r'

/-- Parse one JSON string literal (escape-free: the model responses these
claims exercise never contain backslash escapes, and a backslash makes
this model fail rather than guess). -/
def parseJString : List Char → Option (String × List Char)
  | '"' :: r =>
    let body := r.takeWhile (fun c => !(c = '"' || c = '\\'))
    let rest := r.dropWhile (fun c => !(c = '"' || c = '\\'))
    match rest with
    | '"' :: r2 => some (⟨body⟩, r2)
    | _ => none
  | _ => none

/-- Parse the members of a JSON object whose values are strings;
`fuel` only bounds the recursion and is always supplied large enough. -/
def parseMembers : Nat → ResumeRecord → List Char → Option (ResumeRecord × List Char)
  | 0, _, _ => none
  | fuel + 1, acc, l =>
    match parseJString (l.dropWhile isJsonWs) with
    | none => none
    | some (k, r1) =>
      match r1.dropWhile isJsonWs with
      | ':' :: r2 =>
        match parseJString (r2.dropWhile isJsonWs) with
        | none => none
        | some (v, r3) =>
          match r3.dropWhile isJsonWs with
          | ',' :: r4 => parseMembers fuel (upsert acc k v) r4
          | '\x7d' :: r4 => some (upsert acc k v, r4)
          | _ => none
      | _ => none

/-- Parse a JSON object from the front of `l`. -/
def parseObjL (l : List Char) : Option (ResumeRecord × List Char) :=
  match l.dropWhile isJsonWs with
  | '\x7b' :: r =>
    match r.dropWhile isJsonWs with
    | '\x7d' :: r2 => some ([], r2)
    | _ => parseMembers (r.length + 1) [] r
  | _ => none

/-- Model of Python `json.loads`, restricted to JSON objects whose keys
and values are escape-free strings — the only shape the extraction
prompt requests and the only shape these claims exercise.  Inputs
outside that fragment are treated as parse failures, exactly as the
call sites treat a `json.JSONDecodeError`. -/
def jsonLoadsL (l : List Char) : Option ResumeRecord :=
  match parseObjL l with
  | some (m, rest) => if (rest.dropWhile isJsonWs).isEmpty then some m else none
  | none => none

/-- The backtick character (written via its code point so that it only
ever appears inside strings elsewhere in this file). -/
def tickChar : Char := Char.ofNat 96

/-- The literal of the regex `r'```json\s*'`: three backticks then `json`. -/
def ticksJson : List Char := [tickChar, tickChar, tickChar, 'j', 's', 'o', 'n']

/-- The literal of the regexes `r'```\s*$'` and `r'^```\s*'`. -/
def fence3 : List Char := [tickChar, tickChar, tickChar]

/-- `re.sub(r'```json\s*', '', ...)` with fuel: scan left to right, and at
each occurrence of the literal delete it together with the following
maximal whitespace run (the greedy `\s*`).  `fuel` only bounds the
recursion; the wrapper supplies the input length, which each step
strictly decreases, so the fuel never runs out. -/
def subTicksJsonF : Nat → List Char → List Char
  | _, [] => []
  | 0, l => l
  | fuel + 1, c :: cs =>
    if startsWithL ticksJson (c :: cs) then
      subTicksJsonF fuel (((c :: cs).drop ticksJson.length).dropWhile isPyWs)
    else c :: subTicksJsonF fuel cs

/-- `re.sub(r'```json\s*', '', ...)`. -/
def subTicksJsonL (l : List Char) : List Char := subTicksJsonF l.length l

/-- Is every character whitespace? -/
def allWsL (l : List Char) : Bool := l.all isPyWs

/-- `re.sub(r'```\s*$', '', ...)`: without `re.MULTILINE` the anchor `$`
only matches at the end of the string (or just before a final newline,
which the greedy `\s*` subsumes here), so the substitution deletes the
leftmost ` ``` ` that is followed by nothing but whitespace, together
with everything after it. -/
def subFenceEndF : List Char → List Char
  | [] => []
  | c :: cs =>
    if startsWithL fence3 (c :: cs) && allWsL ((c :: cs).drop fence3.length) then []
    else c :: subFenceEndF cs

/-- `re.sub(r'^```\s*', '', ...)`: anchored at the start, so it fires at
most once, deleting a leading ` ``` ` and the following whitespace. -/
def subFenceStart (l : List Char) : List Char :=
  if startsWithL fence3 l then (l.drop fence3.length).dropWhile isPyWs else l

/-- The markdown-cleaning chain of `extract_json_from_response` (lines
103-106): the three `re.sub` calls followed by `.strip()`. -/
def cleanedChain (c0 : List Char) : List Char :=
  pyStripList (subFenceStart (subFenceEndF (subTicksJsonL c0)))

/-- One step of matching `r'\{[^{}]*(?:\{[^{}]*\}[^{}]*)*\}'` after the
opening brace: alternate runs of non-brace characters with one-level
nested `{...}` groups until the closing brace.  Because the character
class `[^{}]` excludes both braces, the greedy scan is deterministic and
needs no backtracking. -/
def jsonMatchGo : Nat → List Char → List Char → Option (List Char × List Char)
  | 0, _, _ => none
  | fuel + 1, acc, l =>
    let run := l.takeWhile (fun c => !(c = '\x7b' || c = '\x7d'))
    let rest := l.dropWhile (fun c => !(c = '\x7b' || c = '\x7d'))
    match rest with
    | '\x7d' :: r => some (acc ++ run ++ ['\x7d'], r)
    | '\x7b' :: r =>
      let run2 := r.takeWhile (fun c => !(c = '\x7b' || c = '\x7d'))
      let rest2 := r.dropWhile (fun c => !(c = '\x7b' || c = '\x7d'))
      match rest2 with
      | '\x7d' :: r2 => jsonMatchGo fuel (acc ++ run ++ '\x7b' :: (run2 ++ ['\x7d'])) r2
      | _ => none
    | _ => none

/-- Try to match the strategy-3 regex at the head of `l`, returning the
matched text and the remainder. -/
def jsonMatchAtL (l : List Char) : Option (List Char × List Char) :=
  match l with
  | c :: r => if c = '\x7b' then jsonMatchGo (r.length + 1) ['\x7b'] r else none
  | [] => none

/-- `re.findall(json_pattern, cleaned_text, re.DOTALL)`: leftmost,
non-overlapping matches of the brace pattern. -/
def findJsonGo : Nat → List Char → List (List Char)
  | 0, _ => []
  | _ + 1, [] => []
  | fuel + 1, c :: cs =>
    match jsonMatchAtL (c :: cs) with
    | some (m, rest) => m :: findJsonGo fuel rest
    | none => findJsonGo fuel cs

/-- All strategy-3 candidate matches in `l`. -/
def findJsonMatchesL (l : List Char) : List (List Char) :=
  findJsonGo l.length l

/-- The five canonical field names of resume_parser.py line 130. -/
def fieldNames : List String :=
  ["Full Name", "Email", "Phone Number", "CGPA", "BTech College Name"]

/-- Drop one optional quote character, the `["\']?` pieces of the manual
extraction regex. -/
def dropOptQuote (l : List Char) : List Char :=
  match l with
  | c :: r => if c = '"' || c = Char.ofNat 39 then r else l
  | [] => []

/-- Try the manual-extraction regex
`rf'["\']?{field}["\']?\s*:\s*["\']?([^",\n]+)["\']?'` (IGNORECASE) at
the head of `l`, returning capture group 1. -/
def tryFieldAtL (field : List Char) (l : List Char) : Option (List Char) :=
  let l1 := dropOptQuote l
  if startsWithL (field.map Char.toLower) (l1.map Char.toLower) then
    let r1 := l1.drop field.length
    let r2 := (dropOptQuote r1).dropWhile isPyWs
    match r2 with
    | c :: r3 =>
      if c = ':' then
        let r4 := dropOptQuote (r3.dropWhile isPyWs)
        let v := r4.takeWhile (fun ch => !(ch = '"' || ch = ',' || ch = '\n'))
        if v.isEmpty then none else some v
      else none
    | [] => none
  else none

/-- `re.search` of the manual-extraction pattern: try each position left
to right. -/
def findFieldL (field : List Char) : List Char → Option (List Char)
  | [] => none
  | c :: cs =>
    match tryFieldAtL field (c :: cs) with
    | some v => some v
    | none => findFieldL field cs

/-- Manual key extraction (resume_parser.py lines 129-135): for each of
the five fields, a successful search contributes `group(1).strip()`. -/
def manualExtractL (l : List Char) : ResumeRecord :=
  fieldNames.foldl
    (fun acc f =>
      match findFieldL f.data l with
      | some v => acc ++ [(f, (⟨pyStripList v⟩ : String))]
      | none => acc) []

/-- Does the (stripped) text start with `{`?  Python
`cleaned_text.startswith("{")`. -/
def startsBraceL (l : List Char) : Bool :=
  match l with
  | c :: _ => c = '\x7b'
  | [] => false

/-- Does the text end with `}`?  Python `cleaned_text.endswith("}")`. -/
def endsBraceL (l : List Char) : Bool :=
  match l.getLast? with
  | some c => c = '\x7d'
  | none => false

/-- Strategies 1 and 2 share this shape: attempt a direct parse only when
the text looks like a bare JSON object (a failed parse and a failed
guard both fall through, like the `try/except: pass`). -/
def stage1 (c0 : List Char) : Option ResumeRecord :=
  if startsBraceL c0 && endsBraceL c0 then jsonLoadsL c0 else none

/-- `extract_json_from_response` (resume_parser.py lines 90-140) on a
character list: strip; direct parse; markdown-cleaning then re-parse;
scan for balanced-brace candidates; manual field extraction; an empty
manual result becomes `None`. -/
def ejfrL (l : List Char) : Option ResumeRecord :=
  let c0 := pyStripList l
  match stage1 c0 with
  | some m => some m
  | none =>
    let cl := cleanedChain c0
    match stage1 cl with
    | some m => some m
    | none =>
      match (findJsonMatchesL cl).findSome? jsonLoadsL with
      | some m => some m
      | none =>
        let manual := manualExtractL cl
        if manual.isEmpty then none else some manual

/-- `extract_json_from_response` on a string. -/
def extract_json_from_response (response_text : String) : Option ResumeRecord :=
  ejfrL response_text.data

/-- The fallback record of resume_parser.py lines 219-226: all five
fields `"N/A"` plus the raw response truncated to 500 characters under
the key `raw_response`. -/
def fallbackRecord (r : String) : ResumeRecord :=
  [("Full Name", "N/A"), ("Email", "N/A"), ("Phone Number", "N/A"),
   ("CGPA", "N/A"), ("BTech College Name", "N/A"),
   ("raw_response", pyTake 500 r)]

/-- `extract_resume_info` (resume_parser.py lines 142-229).  The single
generative-model invocation is the oracle `gem`: `Except.error e` models
the call raising (caught and returned as an `error` record), `Except.ok
r` models it returning response text `r`.  An empty `text` short-circuits
before the model call; a parse result that is `None` *or an empty dict*
is falsy in `if parsed_data:` and degrades to the fallback record. -/
def extract_resume_info (gem : Except String String) (text : String) : ResumeRecord :=
  if text = "" then [("error", "No text found in resume")]
  else
    match gem with
    | Except.error e => [("error", e)]
    | Except.ok r =>
      match extract_json_from_response r with
      | some m => if m.isEmpty then fallbackRecord r else m
      | none => fallbackRecord r

/-- Wrap a response body in a markdown ` ```json ` code fence, the way a
generative model often does: `"```json\n" + s + "\n```"`. -/
def fenceJsonL (l : List Char) : List Char :=
  ticksJson ++ '\n' :: (l ++ ('\n' :: fence3))

/-- String version of `fenceJsonL`. -/
def fenceJson (s : String) : String := ⟨fenceJsonL s.data⟩

/-- The keyword set of app.py line 184. -/
def keywords : List String :=
  ["email", "@", "mobile", "phone", "cgpa", "college", "b.tech", "education"]

/-- `any(keyword in body.lower() for keyword in [...])` (app.py line 184). -/
def hasResumeKeyword (body : String) : Bool :=
  keywords.any (fun k => isSubstrL k.data (lowerStr body).data)

/-- The row-store header row / fixed column order (app.py lines 30-36 and
164-169). -/
def sheetHeaders : List String :=
  ["Full Name", "Email", "Phone Number", "CGPA", "BTech College Name"]

/-- The five-column row appended to the sheet (app.py lines 164-170 and
193-199): `data.get(field, "N/A")` in fixed order. -/
def buildRow (d : ResumeRecord) : List String :=
  [pyGet d "Full Name" "N/A", pyGet d "Email" "N/A", pyGet d "Phone Number" "N/A",
   pyGet d "CGPA" "N/A", pyGet d "BTech College Name" "N/A"]

/-- One inbound Twilio webhook POST: the message body, the media count
`NumMedia`, and the declared content type of the first attachment. -/
structure InboundEvent where
  body : String
  numMedia : Nat
  contentType : String

/-- Outcomes of every external collaborator touched by one webhook call:
the media-download HTTP status, the PDF text layer and PDF-page OCR
(feeding `extract_text_from_pdf`), the two OCR attempts of
`extract_text_from_image` — once for the image branch (`imgAtt*`) and
once for the app-level OCR fallback that reopens the saved PDF as an
image (`pdfImgAtt*`, app.py line 131) — the generative-model call, and
whether the sheet append succeeds. -/
structure WebOracle where
  status : Nat
  pdfOpenOk : Bool
  pdfPages : List String
  pdfOcrTexts : List String
  pdfOcrOk : Bool
  imgAtt1 : Option String
  imgAtt2 : Option String
  pdfImgAtt1 : Option String
  pdfImgAtt2 : Option String
  gem : Except String String
  sheetOk : Bool

/-- The single textual reply of the webhook.  Constructors carry exactly
the data interpolated into the corresponding f-strings of app.py:
lines 110 (download error), 150 (no text), 174/203 (success with the
extracted record), 205 (keyword miss), 207 (short/empty body). -/
inductive Reply where
  | downloadError (status : Nat)
  | noText
  | success (data : ResumeRecord)
  | notResume
  | tooShort
deriving DecidableEq

/-- The text produced for a media message (app.py lines 118-144): the PDF
branch is taken when `"pdf"` occurs in the lowered content type (which
is also exactly when the derived file extension is `pdf`); a PDF result
stripping below 50 characters triggers the app-level OCR fallback, kept
only when strictly longer. -/
def mediaText (ev : InboundEvent) (o : WebOracle) : String :=
  if isSubstrL "pdf".data (lowerStr ev.contentType).data then
    let t := extract_text_from_pdf o.pdfOpenOk o.pdfPages o.pdfOcrTexts o.pdfOcrOk
    if (pyStrip t).length < 50 then
      let ocr := extract_text_from_image o.pdfImgAtt1 o.pdfImgAtt2
      if (pyStrip t).length < (pyStrip ocr).length then ocr else t
    else t
  else extract_text_from_image o.imgAtt1 o.imgAtt2

/-- `whatsapp_webhook` (app.py lines 49-209), POST case, returning the
reply together with the list of rows appended to the row-store (empty
when the append raises, `sheetOk = false`: the exception is only
printed and the reply is composed afterwards regardless). -/
def whatsapp_webhook (ev : InboundEvent) (o : WebOracle) : Reply × List (List String) :=
  if 0 < ev.numMedia then
    if o.status ≠ 200 then (Reply.downloadError o.status, [])
    else
      let text := mediaText ev o
      if text = "" ∨ (pyStrip text).length = 0 then (Reply.noText, [])
      else
        let data := extract_resume_info o.gem text
        (Reply.success data, if o.sheetOk then [buildRow data] else [])
  else
    if ev.body ≠ "" ∧ 10 < (pyStrip ev.body).length then
      if hasResumeKeyword ev.body then
        let data := extract_resume_info o.gem ev.body
        (Reply.success data, if o.sheetOk then [buildRow data] else [])
      else (Reply.notResume, [])
    else (Reply.tooShort, [])

/-- A fixed oracle for concrete test inputs: download succeeds, all
extraction oracles are trivial, the model returns an empty reply, and
the sheet append succeeds. -/
def oracle0 : WebOracle :=
  ⟨200, true, [], [], true, none, none, none, none, Except.ok "", true⟩

/-- Like `oracle0`, but the PDF text layer yields a direct text long
enough (at least 50 stripped characters) to skip every OCR fallback. -/
def oracle1 : WebOracle :=
  { oracle0 with
    pdfPages :=
      ["A sufficiently long direct text layer extracted from the resume pdf document."] }

example : extract_text_from_pdf true ["abcde"]
    ["0123456789012345678901234567890123456789"] true
    = "abcde0123456789012345678901234567890123456789" := by decide

example : extract_text_from_image (some "abc") (some "") = "" := by decide

example : extract_text_from_image (some "  hello there world  ") none
    = "hello there world" := by decide

example : jsonLoadsL "\x7b\x7d".data = some [] := by decide

example : jsonLoadsL "\x7b\"Email\": \"x@y.com\"\x7d".data
    = some [("Email", "x@y.com")] := by decide

example : jsonLoadsL " \x7b \"A\" : \"1\" , \"B\" : \"2\" \x7d ".data
    = some [("A", "1"), ("B", "2")] := by decide

example : jsonLoadsL "\x7b\"A\": \"1\"".data = none := by decide

example : jsonLoadsL "hello".data = none := by decide

example : extract_json_from_response "\x7b\"Email\": \"x@y.com\"\x7d"
    = some [("Email", "x@y.com")] := by decide

example : extract_json_from_response "```json\n\x7b\"A\": \"1\"\x7d\n```"
    = some [("A", "1")] := by decide

example : extract_json_from_response "noise \x7b\"A\": \"1\"\x7d noise"
    = some [("A", "1")] := by decide

example : extract_json_from_response "Email: jane@x.com"
    = some [("Email", "jane@x.com")] := by decide

example : extract_json_from_response "hello world" = none := by decide

example : extract_resume_info (Except.ok "hello world") "resume text"
    = fallbackRecord "hello world" := by decide

example : extract_json_from_response "\x7b\"Full Name\": \"a```json b\"\x7d"
    = some [("Full Name", "a```json b")] := by decide

example : extract_json_from_response
      (fenceJson "\x7b\"Full Name\": \"a```json b\"\x7d")
    = some [("Full Name", "ab")] := by decide

example : whatsapp_webhook ⟨"email@a.in", 0, ""⟩ oracle0 = (Reply.tooShort, []) := by decide

example : (pyStrip "email@a.in").length = 10 := by decide

example : whatsapp_webhook ⟨"my email is a@b.com", 0, ""⟩ oracle0
    = (Reply.success (extract_resume_info (Except.ok "") "my email is a@b.com"),
       [buildRow (extract_resume_info (Except.ok "") "my email is a@b.com")]) := by decide

theorem dropWhile_idem (p : Char → Bool) (l : List Char) :
    (l.dropWhile p).dropWhile p = l.dropWhile p := by
  induction l with
  | nil => rfl
  | cons c t ih =>
    by_cases h : p c
    · simp [List.dropWhile_cons, h, ih]
    · simp [List.dropWhile_cons, h]

theorem dropWhile_append_nil (p : Char → Bool) {a : List Char}
    (h : a.dropWhile p = []) (b : List Char) :
    (a ++ b).dropWhile p = b.dropWhile p := by
  induction a with
  | nil => rfl
  | cons c t ih =>
    by_cases hc : p c
    · simp only [List.cons_append, List.dropWhile_cons, hc, if_true]
      simp only [List.dropWhile_cons, hc, if_true] at h
      exact ih h
    · simp [List.dropWhile_cons, hc] at h

theorem dropWhile_append_cons (p : Char → Bool) {a : List Char} {c : Char} {t : List Char}
    (h : a.dropWhile p = c :: t) (b : List Char) :
    (a ++ b).dropWhile p = c :: (t ++ b) := by
  induction a with
  | nil => simp at h
  | cons d ds ih =>
    by_cases hd : p d
    · simp only [List.cons_append, List.dropWhile_cons, hd, if_true]
      simp only [List.dropWhile_cons, hd, if_true] at h
      exact ih h
    · simp only [List.dropWhile_cons, hd, if_false] at h
      obtain ⟨h1, h2⟩ := List.cons.inj h
      subst h1; subst h2
      simp [List.dropWhile_cons, hd]

theorem mem_of_dropWhile {p : Char → Bool} {l : List Char} {c : Char}
    (h : c ∈ l.dropWhile p) : c ∈ l := (List.dropWhile_suffix p).subset h

theorem stripL_cons_not {c : Char} (h : isPyWs c = false) (t : List Char) :
    stripL (c :: t) = c :: t := by
  simp [stripL, List.dropWhile_cons, h]

theorem stripL_head_not_ws {l : List Char} {c : Char} {t : List Char}
    (h : stripL l = c :: t) : isPyWs c = false := by
  induction l with
  | nil => simp [stripL] at h
  | cons d ds ih =>
    by_cases hd : isPyWs d
    · simp only [stripL, List.dropWhile_cons, hd, if_true] at h
      exact ih h
    · simp only [stripL, List.dropWhile_cons, hd, if_false] at h
      obtain ⟨h1, _⟩ := List.cons.inj h
      subst h1
      simpa using hd

theorem stripL_idem (l : List Char) : stripL (stripL l) = stripL l :=
  dropWhile_idem isPyWs l

theorem stripR_idem (l : List Char) : stripR (stripR l) = stripR l := by
  unfold stripR
  rw [List.reverse_reverse, dropWhile_idem]

theorem stripR_append_ws {c : Char} (h : isPyWs c = true) (a : List Char) :
    stripR (a ++ [c]) = stripR a := by
  unfold stripR
  rw [List.reverse_append]
  simp [List.dropWhile_cons, h]

theorem stripR_append_not {c : Char} (h : isPyWs c = false) (a : List Char) :
    stripR (a ++ [c]) = a ++ [c] := by
  unfold stripR
  rw [List.reverse_append]
  simp [List.dropWhile_cons, h]

theorem stripR_head {l : List Char} {c : Char} {r : List Char}
    (h : stripR l = c :: r) : ∃ t, l = c :: t := by
  cases l with
  | nil => simp [stripR] at h
  | cons d ds =>
    unfold stripR at h
    rw [List.reverse_cons] at h
    cases hrev : ds.reverse.dropWhile isPyWs with
    | nil =>
      rw [dropWhile_append_nil isPyWs hrev] at h
      by_cases hd : isPyWs d
      · simp [List.dropWhile_cons, hd] at h
      · simp only [List.dropWhile_cons, hd, Bool.false_eq_true, if_false,
          List.reverse_cons, List.reverse_nil, List.nil_append] at h
        obtain ⟨h1, _⟩ := List.cons.inj h
        exact ⟨ds, by rw [h1]⟩
    | cons e es =>
      rw [dropWhile_append_cons isPyWs hrev] at h
      rw [List.reverse_cons, List.reverse_append] at h
      simp only [List.reverse_cons, List.reverse_nil, List.nil_append,
        List.singleton_append, List.cons_append] at h
      obtain ⟨h1, _⟩ := List.cons.inj h
      exact ⟨ds, by rw [h1]⟩

theorem stripL_stripR_self {l : List Char} (h : stripL l = l) :
    stripL (stripR l) = stripR l := by
  cases l with
  | nil => rfl
  | cons c t =>
    have hc : isPyWs c = false := stripL_head_not_ws h
    cases hs : stripR (c :: t) with
    | nil => rfl
    | cons d r =>
      obtain ⟨t', ht'⟩ := stripR_head hs
      obtain ⟨h1, _⟩ := List.cons.inj ht'
      subst h1
      exact stripL_cons_not hc r

theorem pyStripList_idem (l : List Char) : pyStripList (pyStripList l) = pyStripList l := by
  unfold pyStripList
  rw [stripL_stripR_self (stripL_idem l), stripR_idem]

theorem pyStrip_idem (s : String) : pyStrip (pyStrip s) = pyStrip s := by
  show (⟨pyStripList (pyStripList s.data)⟩ : String) = ⟨pyStripList s.data⟩
  rw [pyStripList_idem]

theorem mem_of_stripL {l : List Char} {c : Char} (h : c ∈ stripL l) : c ∈ l :=
  mem_of_dropWhile h

theorem mem_of_stripR {l : List Char} {c : Char} (h : c ∈ stripR l) : c ∈ l := by
  unfold stripR at h
  rw [List.mem_reverse] at h
  exact List.mem_reverse.mp (mem_of_dropWhile h)

theorem mem_of_pyStripList {l : List Char} {c : Char} (h : c ∈ pyStripList l) : c ∈ l :=
  mem_of_stripL (mem_of_stripR h)

theorem startsWithL_append_self (a b : List Char) : startsWithL a (a ++ b) = true := by
  induction a with
  | nil => rfl
  | cons c cs ih => simp [startsWithL, ih]

theorem startsWithL_ticks_false {c : Char} (h : c ≠ tickChar) (l : List Char) :
    startsWithL ticksJson (c :: l) = false := by
  simp only [ticksJson, startsWithL, Bool.and_eq_false_iff]
  left
  simp [beq_eq_false_iff_ne]
  exact fun h' => h h'.symm

theorem startsWithL_fence3_false {c : Char} (h : c ≠ tickChar) (l : List Char) :
    startsWithL fence3 (c :: l) = false := by
  simp only [fence3, startsWithL, Bool.and_eq_false_iff]
  left
  simp [beq_eq_false_iff_ne]
  exact fun h' => h h'.symm

theorem subT_no_match (fuel : Nat) (l : List Char)
    (h : l.tails.all (fun t => !startsWithL ticksJson t) = true) :
    subTicksJsonF fuel l = l := by
  induction fuel generalizing l with
  | zero => cases l <;> rfl
  | succ fuel ih =>
    cases l with
    | nil => rfl
    | cons c cs =>
      rw [List.tails_cons, List.all_cons, Bool.and_eq_true] at h
      obtain ⟨h1, h2⟩ := h
      rw [Bool.not_eq_true'] at h1
      simp only [subTicksJsonF, h1, Bool.false_eq_true, if_false]
      rw [ih cs h2]

theorem subT_step (fuel : Nat) (l : List Char) (h : startsWithL ticksJson l = true) :
    subTicksJsonF (fuel + 1) l
      = subTicksJsonF fuel ((l.drop ticksJson.length).dropWhile isPyWs) := by
  cases l with
  | nil => simp [startsWithL, ticksJson] at h
  | cons c cs => simp only [subTicksJsonF, h, if_true]

theorem subT_keep (a : List Char) (ha : ∀ c ∈ a, c ≠ tickChar) (fuel : Nat) :
    subTicksJsonF fuel (a ++ ('\n' :: fence3)) = a ++ ('\n' :: fence3) := by
  induction a generalizing fuel with
  | nil => exact subT_no_match fuel _ (by decide)
  | cons c cs ih =>
    cases fuel with
    | zero => rfl
    | succ fuel =>
      have hc : c ≠ tickChar := ha c (List.mem_cons_self c cs)
      rw [List.cons_append]
      simp only [subTicksJsonF, startsWithL_ticks_false hc, Bool.false_eq_true, if_false]
      rw [ih (fun d hd => ha d (List.mem_cons_of_mem c hd)) fuel]

theorem subFE_keep (a : List Char) (ha : ∀ c ∈ a, c ≠ tickChar) :
    subFenceEndF (a ++ ('\n' :: fence3)) = a ++ ['\n'] := by
  induction a with
  | nil => decide
  | cons c cs ih =>
    have hc : c ≠ tickChar := ha c (List.mem_cons_self c cs)
    rw [List.cons_append]
    simp only [subFenceEndF, startsWithL_fence3_false hc, Bool.false_and,
      Bool.false_eq_true, if_false]
    rw [ih (fun d hd => ha d (List.mem_cons_of_mem c hd))]
    rfl

theorem subFenceStart_no {c : Char} (h : c ≠ tickChar) (l : List Char) :
    subFenceStart (c :: l) = c :: l := by
  simp [subFenceStart, startsWithL_fence3_false h]

theorem pyStripList_self {c d : Char} (hc : isPyWs c = false) (hd : isPyWs d = false)
    (mid : List Char) : pyStripList (c :: (mid ++ [d])) = c :: (mid ++ [d]) := by
  unfold pyStripList
  rw [stripL_cons_not hc]
  have h1 : c :: (mid ++ [d]) = (c :: mid) ++ [d] := by simp
  rw [h1, stripR_append_not hd]

theorem pyStripList_fence (Jd : List Char) :
    pyStripList (fenceJsonL Jd) = fenceJsonL Jd := by
  have h1 : fenceJsonL Jd
      = tickChar :: (([tickChar, tickChar, 'j', 's', 'o', 'n', '\n'] ++ Jd
          ++ ['\n', tickChar, tickChar]) ++ [tickChar]) := by
    simp [fenceJsonL, ticksJson, fence3]
  rw [h1, pyStripList_self (by decide) (by decide)]

theorem subTicksJson_fence {Jd : List Char} {c : Char} {t : List Char}
    (hTick : ∀ x ∈ Jd, x ≠ tickChar) (hSL : stripL Jd = c :: t) :
    subTicksJsonL (fenceJsonL Jd) = stripL Jd ++ ('\n' :: fence3) := by
  have hstart : startsWithL ticksJson (fenceJsonL Jd) = true := by
    unfold fenceJsonL
    exact startsWithL_append_self ticksJson _
  unfold subTicksJsonL
  obtain ⟨k, hk⟩ : ∃ k, (fenceJsonL Jd).length = k + 1 :=
    ⟨(fenceJsonL Jd).length - 1, by simp [fenceJsonL, ticksJson]⟩
  rw [hk, subT_step k _ hstart]
  have hdrop : (fenceJsonL Jd).drop ticksJson.length = '\n' :: (Jd ++ ('\n' :: fence3)) := by
    unfold fenceJsonL
    exact List.drop_left ticksJson _
  rw [hdrop]
  have hnl : isPyWs '\n' = true := by decide
  rw [List.dropWhile_cons]
  simp only [hnl, if_true]
  rw [dropWhile_append_cons isPyWs hSL]
  have h2 : c :: (t ++ ('\n' :: fence3)) = (c :: t) ++ ('\n' :: fence3) := by simp
  rw [h2, ← hSL]
  exact subT_keep (stripL Jd) (fun d hd => hTick d (mem_of_stripL hd)) k

theorem pyStrip_cleanup {Jd : List Char} {c : Char} {t : List Char}
    (hSL : stripL Jd = c :: t) :
    pyStripList (stripL Jd ++ ['\n']) = pyStripList Jd := by
  have hc : isPyWs c = false := stripL_head_not_ws hSL
  unfold pyStripList
  rw [hSL]
  have h1 : (c :: t) ++ ['\n'] = c :: (t ++ ['\n']) := by simp
  rw [h1, stripL_cons_not hc]
  have h2 : c :: (t ++ ['\n']) = (c :: t) ++ ['\n'] := by simp
  rw [h2, stripR_append_ws (by decide), ← hSL]

theorem subTicksJsonF_nil (fuel : Nat) : subTicksJsonF fuel [] = [] := by
  cases fuel <;> rfl

theorem mem_of_subTicksF {fuel : Nat} {l : List Char} {c : Char}
    (h : c ∈ subTicksJsonF fuel l) : c ∈ l := by
  induction fuel generalizing l with
  | zero => cases l with
    | nil => simp [subTicksJsonF_nil] at h
    | cons d ds => exact h
  | succ fuel ih =>
    cases l with
    | nil => simp [subTicksJsonF_nil] at h
    | cons d ds =>
      by_cases hs : startsWithL ticksJson (d :: ds)
      · simp only [subTicksJsonF, hs, if_true] at h
        exact List.mem_of_mem_drop (mem_of_dropWhile (ih h))
      · simp only [subTicksJsonF, hs, Bool.false_eq_true, if_false] at h
        rcases List.mem_cons.mp h with h1 | h1
        · exact h1 ▸ List.mem_cons_self d ds
        · exact List.mem_cons_of_mem d (ih h1)

theorem mem_of_subTicksJsonL {l : List Char} {c : Char}
    (h : c ∈ subTicksJsonL l) : c ∈ l := mem_of_subTicksF h

theorem mem_of_subFenceEndF {l : List Char} {c : Char}
    (h : c ∈ subFenceEndF l) : c ∈ l := by
  induction l with
  | nil => simp [subFenceEndF] at h
  | cons d ds ih =>
    by_cases hs : startsWithL fence3 (d :: ds) && allWsL ((d :: ds).drop fence3.length)
    · simp only [subFenceEndF, hs, if_true] at h
      simp at h
    · simp only [subFenceEndF, hs, Bool.false_eq_true, if_false] at h
      rcases List.mem_cons.mp h with h1 | h1
      · exact h1 ▸ List.mem_cons_self d ds
      · exact List.mem_cons_of_mem d (ih h1)

theorem mem_of_subFenceStart {l : List Char} {c : Char}
    (h : c ∈ subFenceStart l) : c ∈ l := by
  unfold subFenceStart at h
  by_cases hs : startsWithL fence3 l
  · rw [if_pos hs] at h
    exact List.mem_of_mem_drop (mem_of_dropWhile h)
  · rwa [if_neg hs] at h

theorem mem_of_cleanedChain {l : List Char} {c : Char}
    (h : c ∈ cleanedChain l) : c ∈ l :=
  mem_of_subTicksJsonL (mem_of_subFenceEndF (mem_of_subFenceStart (mem_of_pyStripList h)))

theorem startsBraceL_false {l : List Char} (h : ∀ c ∈ l, c ≠ '\x7b') :
    startsBraceL l = false := by
  cases l with
  | nil => rfl
  | cons c cs =>
    simp only [startsBraceL]
    simp [h c (List.mem_cons_self c cs)]

theorem findJsonGo_nil (fuel : Nat) (l : List Char) (h : ∀ c ∈ l, c ≠ '\x7b') :
    findJsonGo fuel l = [] := by
  induction fuel generalizing l with
  | zero => rfl
  | succ fuel ih =>
    cases l with
    | nil => rfl
    | cons c cs =>
      have hc : ¬(c = '\x7b') := h c (List.mem_cons_self c cs)
      simp only [findJsonGo, jsonMatchAtL, hc, if_false]
      exact ih cs (fun d hd => h d (List.mem_cons_of_mem c hd))

theorem manualExtract_none {l : List Char}
    (h : ∀ f ∈ fieldNames, findFieldL f.data l = none) :
    manualExtractL l = [] := by
  have h1 := h "Full Name" (by simp [fieldNames])
  have h2 := h "Email" (by simp [fieldNames])
  have h3 := h "Phone Number" (by simp [fieldNames])
  have h4 := h "CGPA" (by simp [fieldNames])
  have h5 := h "BTech College Name" (by simp [fieldNames])
  simp [manualExtractL, fieldNames, h1, h2, h3, h4, h5]

theorem stage1_some {c0 : List Char} {m : ResumeRecord}
    (hH : startsBraceL c0 = true) (hE : endsBraceL c0 = true)
    (hP : jsonLoadsL c0 = some m) : stage1 c0 = some m := by
  simp [stage1, hH, hE, hP]

theorem stage1_none_of_noBrace {c0 : List Char} (h : startsBraceL c0 = false) :
    stage1 c0 = none := by
  simp [stage1, h]

theorem ejfrL_of_stage1 {l : List Char} {m : ResumeRecord}
    (h : stage1 (pyStripList l) = some m) : ejfrL l = some m := by
  simp only [ejfrL, h]

theorem ejfrL_of_stage2 {l : List Char} {m : ResumeRecord}
    (h1 : stage1 (pyStripList l) = none)
    (h2 : stage1 (cleanedChain (pyStripList l)) = some m) : ejfrL l = some m := by
  simp only [ejfrL, h1, h2]

theorem ejfrL_none {l : List Char}
    (h1 : stage1 (pyStripList l) = none)
    (h2 : stage1 (cleanedChain (pyStripList l)) = none)
    (h3 : findJsonMatchesL (cleanedChain (pyStripList l)) = [])
    (h4 : manualExtractL (cleanedChain (pyStripList l)) = []) : ejfrL l = none := by
  simp only [ejfrL, h1, h2, h3, h4]
  rfl

theorem ejfr_none_of_noise (r : String)
    (hNoBrace : ∀ c ∈ r.data, c ≠ '\x7b')
    (hNoField : ∀ f ∈ fieldNames, findFieldL f.data (cleanedChain (pyStripList r.data)) = none) :
    extract_json_from_response r = none := by
  have hc0 : ∀ c ∈ pyStripList r.data, c ≠ '\x7b' :=
    fun c hc => hNoBrace c (mem_of_pyStripList hc)
  have hcl : ∀ c ∈ cleanedChain (pyStripList r.data), c ≠ '\x7b' :=
    fun c hc => hNoBrace c (mem_of_pyStripList (mem_of_cleanedChain hc))
  exact ejfrL_none
    (stage1_none_of_noBrace (startsBraceL_false hc0))
    (stage1_none_of_noBrace (startsBraceL_false hcl))
    (findJsonGo_nil _ _ hcl)
    (manualExtract_none hNoField)

theorem eri_parsed {text r : String} {m : ResumeRecord} (hT : text ≠ "")
    (hm : extract_json_from_response r = some m) (hne : m ≠ []) :
    extract_resume_info (Except.ok r) text = m := by
  unfold extract_resume_info
  rw [if_neg hT]
  simp only [hm]
  rw [if_neg]
  simp [List.isEmpty_iff, hne]

theorem eri_failed {text r : String} (hT : text ≠ "")
    (hm : extract_json_from_response r = none) :
    extract_resume_info (Except.ok r) text = fallbackRecord r := by
  unfold extract_resume_info
  rw [if_neg hT]
  simp only [hm]

theorem cleanedChain_fence {Jd : List Char} {c : Char} {t : List Char}
    (hTick : ∀ x ∈ Jd, x ≠ tickChar) (hSL : stripL Jd = c :: t) :
    cleanedChain (fenceJsonL Jd) = pyStripList Jd := by
  unfold cleanedChain
  rw [subTicksJson_fence hTick hSL,
    subFE_keep (stripL Jd) (fun d hd => hTick d (mem_of_stripL hd))]
  have hc : c ≠ tickChar := by
    intro h
    have := hTick c (mem_of_stripL (hSL ▸ List.mem_cons_self c t))
    exact this h
  rw [hSL]
  have h1 : (c :: t) ++ ['\n'] = c :: (t ++ ['\n']) := by simp
  rw [h1, subFenceStart_no hc, ← h1, ← hSL]
  exact pyStrip_cleanup hSL

theorem pyStrip_empty : pyStrip "" = "" := by decide

theorem pyGet_absent (k dflt : String) :
    ∀ d : ResumeRecord, (∀ v, (k, v) ∉ d) → pyGet d k dflt = dflt := by
  intro d
  induction d with
  | nil => intro _; rfl
  | cons p rest ih =>
    intro hk
    obtain ⟨k', v'⟩ := p
    by_cases h : k' = k
    · subst h
      exact absurd (List.mem_cons_self _ _) (hk v')
    · simp only [pyGet, h, if_false]
      exact ih (fun v hv => hk v (List.mem_cons_of_mem _ hv))

/-- C9: `extract_text_from_pdf` and `extract_text_from_image` always
return a string with no leading or trailing whitespace (the result
equals its own strip), and every caught-exception path returns the
empty string. -/
theorem c9_extractors_return_stripped :
    (∀ ok pages ocrTexts oOk,
        pyStrip (extract_text_from_pdf ok pages ocrTexts oOk)
          = extract_text_from_pdf ok pages ocrTexts oOk)
    ∧ (∀ pages ocrTexts oOk, extract_text_from_pdf false pages ocrTexts oOk = "")
    ∧ (∀ a1 a2, pyStrip (extract_text_from_image a1 a2) = extract_text_from_image a1 a2)
    ∧ (∀ a2, extract_text_from_image none a2 = "")
    ∧ (∀ t1 : String, (pyStrip t1).length < 10 →
        extract_text_from_image (some t1) none = "") := by
  refine ⟨?_, ?_, ?_, ?_, ?_⟩
  · intro ok pages ocrTexts oOk
    simp only [extract_text_from_pdf]
    split
    · split
      · split
        · exact pyStrip_idem _
        · split
          · exact pyStrip_idem _
          · exact pyStrip_empty
      · exact pyStrip_idem _
    · exact pyStrip_empty
  · intro pages ocrTexts oOk; rfl
  · intro a1 a2
    match a1 with
    | none => exact pyStrip_empty
    | some t1 =>
      simp only [extract_text_from_image]
      split
      · match a2 with
        | none => exact pyStrip_empty
        | some t2 => exact pyStrip_idem _
      · exact pyStrip_idem _
  · intro a2; rfl
  · intro t1 h
    simp only [extract_text_from_image]
    rw [if_pos h]

/-- Witness for C9 at a concrete input: an exception in the retry OCR
attempt yields the empty string. -/
theorem c9_extractors_return_stripped_witness :
    extract_text_from_image (some "abc") none = "" :=
  c9_extractors_return_stripped.2.2.2.2 "abc" (by decide)

/-- C1 counterexample: a successfully parsed model response that only
contains the `Email` key is returned by `extract_resume_info` verbatim —
the absent canonical field `Full Name` is *not* filled with `"N/A"`,
it is omitted. -/
theorem c1_parsed_mapping_not_filled :
    extract_resume_info (Except.ok "\x7b\"Email\": \"x@y.com\"\x7d") "resume text"
      = [("Email", "x@y.com")]
    ∧ (extract_resume_info (Except.ok "\x7b\"Email\": \"x@y.com\"\x7d") "resume text").lookup
        "Full Name" = none := by decide

/-- C1 (amended): `extract_resume_info` returns a successfully parsed
non-empty mapping verbatim, possibly omitting canonical keys; the
`"N/A"` fill for absent canonical fields happens only when the
persisted row is built (`data.get(field, "N/A")`), which always
produces exactly five columns. -/
theorem c1_fill_happens_at_row_build :
    (∀ (text r : String) (m : ResumeRecord), text ≠ "" →
        extract_json_from_response r = some m → m ≠ [] →
        extract_resume_info (Except.ok r) text = m)
    ∧ (∀ d : ResumeRecord, (buildRow d).length = 5)
    ∧ (∀ (d : ResumeRecord) (k : String), k ∈ sheetHeaders → (∀ v, (k, v) ∉ d) →
        pyGet d k "N/A" = "N/A") :=
  ⟨fun _ _ _ hT hm hne => eri_parsed hT hm hne,
   fun _ => rfl,
   fun d k _ hk => pyGet_absent k "N/A" d hk⟩

/-- Witness for C1 (amended) at concrete inputs. -/
theorem c1_fill_happens_at_row_build_witness :
    extract_resume_info (Except.ok "\x7b\"Email\": \"x@y.com\"\x7d") "resume sample"
      = [("Email", "x@y.com")]
    ∧ pyGet [("Email", "x@y.com")] "Full Name" "N/A" = "N/A" :=
  ⟨c1_fill_happens_at_row_build.1 "resume sample" _ _ (by decide) (by decide) (by decide),
   c1_fill_happens_at_row_build.2.2 [("Email", "x@y.com")] "Full Name" (by decide)
     (by intro v hv; simp at hv)⟩

/-- C2 counterexample: a PDF whose direct text layer yields the 5
stripped characters `abcde` and whose page OCR yields 40 characters
produces the 45-character concatenation, not the OCR text alone. -/
theorem c2_pdf_ocr_not_replacing :
    extract_text_from_pdf true ["abcde"] ["0123456789012345678901234567890123456789"] true
      = "abcde0123456789012345678901234567890123456789"
    ∧ extract_text_from_pdf true ["abcde"] ["0123456789012345678901234567890123456789"] true
        ≠ "0123456789012345678901234567890123456789"
    ∧ (pyStrip "abcde").length = 5
    ∧ (pyStrip "0123456789012345678901234567890123456789").length = 40 := by decide

/-- C2 (amended): when the direct text layer strips below 20 characters
and OCR runs, the OCR output is *appended* to the direct-extraction
result (`text += img_text`): the final text is the stripped
concatenation, not the OCR text alone. -/
theorem c2_pdf_ocr_appended (pages ocr : List String)
    (hShort : (pyStrip (String.join pages)).length < 20) (hOcr : ocr ≠ []) :
    extract_text_from_pdf true pages ocr true
      = pyStrip (String.join pages ++ String.join ocr) := by
  have hne : ocr.isEmpty = false := by
    cases ocr with
    | nil => exact absurd rfl hOcr
    | cons a as => rfl
  simp [extract_text_from_pdf, hShort, hne]

/-- Witness for C2 (amended) at the claim's concrete sizes. -/
theorem c2_pdf_ocr_appended_witness :
    extract_text_from_pdf true ["abcde"] ["0123456789012345678901234567890123456789"] true
      = pyStrip (String.join ["abcde"]
          ++ String.join ["0123456789012345678901234567890123456789"]) :=
  c2_pdf_ocr_appended ["abcde"] ["0123456789012345678901234567890123456789"]
    (by decide) (by decide)

/-- C3 counterexample: the first OCR attempt yields `abc` (stripped
length 3), the retry yields the empty string; the code returns the
*retry* result, not the longer first attempt. -/
theorem c3_retry_result_not_longer :
    extract_text_from_image (some "abc") (some "") = ""
    ∧ (pyStrip "abc").length = 3
    ∧ extract_text_from_image (some "abc") (some "") ≠ pyStrip "abc" := by decide

/-- C3 (amended): when the first attempt strips below 10 characters,
exactly one retry runs and its output unconditionally replaces the
first attempt's, even when shorter; otherwise the first attempt's
stripped output is returned and the retry never runs. -/
theorem c3_retry_replaces_first :
    (∀ t1 t2 : String, (pyStrip t1).length < 10 →
        extract_text_from_image (some t1) (some t2) = pyStrip t2)
    ∧ (∀ (t1 : String) (a2 : Option String), ¬(pyStrip t1).length < 10 →
        extract_text_from_image (some t1) a2 = pyStrip t1) := by
  constructor
  · intro t1 t2 h
    simp only [extract_text_from_image]
    rw [if_pos h]
  · intro t1 a2 h
    simp only [extract_text_from_image]
    rw [if_neg h]

/-- Witness for C3 (amended) at concrete inputs. -/
theorem c3_retry_replaces_first_witness :
    extract_text_from_image (some "abc") (some "longer retry text")
      = pyStrip "longer retry text"
    ∧ extract_text_from_image (some "already long enough") none
      = pyStrip "already long enough" :=
  ⟨c3_retry_replaces_first.1 "abc" "longer retry text" (by decide),
   c3_retry_replaces_first.2 "already long enough" none (by decide)⟩

/-- C8: the response `{}` parses successfully to the empty mapping, but
`if parsed_data:` treats an empty dict like a parse failure, so
`extract_resume_info` returns the all-`"N/A"` record with the
truncated `raw_response` diagnostic. -/
theorem c8_empty_object_is_failure :
    extract_json_from_response "\x7b\x7d" = some []
    ∧ extract_resume_info (Except.ok "\x7b\x7d") "resume text"
        = fallbackRecord "\x7b\x7d" := by decide

/-- C4 counterexample: the text-path guard is `len(body.strip()) > 10`,
strictly: the body `email@a.in` has stripped length exactly 10 and
contains the keywords `email` and `@`, yet the webhook sends the
generic instructional reply and persists nothing — field recovery is
not invoked. -/
theorem c4_boundary_ten_rejected :
    (pyStrip "email@a.in").length = 10
    ∧ hasResumeKeyword "email@a.in" = true
    ∧ whatsapp_webhook ⟨"email@a.in", 0, ""⟩ oracle0 = (Reply.tooShort, []) := by decide

/-- C4 (amended): the text path invokes field recovery and persists one
five-column row only for bodies of stripped length strictly greater
than 10 that contain a keyword; bodies of stripped length below 10
(indeed, at most 10) get the generic instructional reply and zero
row-store writes. -/
theorem c4_textpath_thresholds :
    (∀ (body ct : String) (o : WebOracle), 10 < (pyStrip body).length →
        hasResumeKeyword body = true → o.sheetOk = true →
        whatsapp_webhook ⟨body, 0, ct⟩ o
          = (Reply.success (extract_resume_info o.gem body),
             [buildRow (extract_resume_info o.gem body)])
        ∧ (buildRow (extract_resume_info o.gem body)).length = 5)
    ∧ (∀ (body ct : String) (o : WebOracle), (pyStrip body).length < 10 →
        whatsapp_webhook ⟨body, 0, ct⟩ o = (Reply.tooShort, [])) := by
  constructor
  · intro body ct o hLen hKw hSheet
    have hb : body ≠ "" := by
      intro h; rw [h] at hLen; exact absurd hLen (by decide)
    exact ⟨by simp [whatsapp_webhook, hb, hLen, hKw, hSheet], rfl⟩
  · intro body ct o hLen
    have h10 : ¬(10 < (pyStrip body).length) := by omega
    simp [whatsapp_webhook, h10]

/-- Witness for C4 (amended): a 19-character keyword-bearing body is
recovered and persisted; a 2-character body is rejected. -/
theorem c4_textpath_thresholds_witness :
    whatsapp_webhook ⟨"my email is a@b.com", 0, ""⟩ oracle0
      = (Reply.success (extract_resume_info oracle0.gem "my email is a@b.com"),
         [buildRow (extract_resume_info oracle0.gem "my email is a@b.com")])
    ∧ whatsapp_webhook ⟨"hi", 0, ""⟩ oracle0 = (Reply.tooShort, []) :=
  ⟨(c4_textpath_thresholds.1 "my email is a@b.com" "" oracle0
      (by decide) (by decide) rfl).1,
   c4_textpath_thresholds.2 "hi" "" oracle0 (by decide)⟩

/-- C5: the user-facing reply never depends on whether the row-store
append succeeds (on every path, media or text), and on both successful
recovery paths the reply is the success reply carrying the extracted
record. -/
theorem c5_persistence_isolated :
    (∀ (ev : InboundEvent) (o : WebOracle) (b₁ b₂ : Bool),
        (whatsapp_webhook ev { o with sheetOk := b₁ }).1
          = (whatsapp_webhook ev { o with sheetOk := b₂ }).1)
    ∧ (∀ (ev : InboundEvent) (o : WebOracle), ev.numMedia = 0 →
        10 < (pyStrip ev.body).length → hasResumeKeyword ev.body = true →
        (whatsapp_webhook ev o).1 = Reply.success (extract_resume_info o.gem ev.body))
    ∧ (∀ (ev : InboundEvent) (o : WebOracle), 0 < ev.numMedia → o.status = 200 →
        (pyStrip (mediaText ev o)).length ≠ 0 →
        (whatsapp_webhook ev o).1
          = Reply.success (extract_resume_info o.gem (mediaText ev o))) := by
  refine ⟨?_, ?_, ?_⟩
  · intro ev o b₁ b₂
    have hm : ∀ b, mediaText ev { o with sheetOk := b } = mediaText ev o := fun _ => rfl
    have hs : ∀ b, ({ o with sheetOk := b } : WebOracle).status = o.status := fun _ => rfl
    have hg : ∀ b, ({ o with sheetOk := b } : WebOracle).gem = o.gem := fun _ => rfl
    simp only [whatsapp_webhook, hm, hs, hg]
    split
    · split
      · rfl
      · split
        · rfl
        · rfl
    · split
      · split
        · rfl
        · rfl
      · rfl
  · intro ev o hM hLen hKw
    have hb : ev.body ≠ "" := by
      intro h; rw [h] at hLen; exact absurd hLen (by decide)
    simp [whatsapp_webhook, hM, hb, hLen, hKw]
  · intro ev o hM hS hT
    have hne : ¬(mediaText ev o = "" ∨ (pyStrip (mediaText ev o)).length = 0) := by
      rintro (h | h)
      · exact hT (by rw [h]; rfl)
      · exact hT h
    simp [whatsapp_webhook, hM, hS, hne]

/-- Witness for C5 at concrete inputs on both the text path and the
media path. -/
theorem c5_persistence_isolated_witness :
    (whatsapp_webhook ⟨"my email is a@b.com", 0, ""⟩ oracle0).1
      = Reply.success (extract_resume_info oracle0.gem "my email is a@b.com")
    ∧ (whatsapp_webhook ⟨"", 1, "application/pdf"⟩ oracle1).1
      = Reply.success (extract_resume_info oracle1.gem
          (mediaText ⟨"", 1, "application/pdf"⟩ oracle1)) :=
  ⟨c5_persistence_isolated.2.1 ⟨"my email is a@b.com", 0, ""⟩ oracle0 rfl
      (by decide) (by decide),
   c5_persistence_isolated.2.2 ⟨"", 1, "application/pdf"⟩ oracle1
      (by decide) rfl (by decide)⟩

/-- C6 counterexample: on a response with no braces and no field-label
match, the diagnostic key added by the code is named `raw_response`,
not `raw_model_response` as the claim states. -/
theorem c6_diagnostic_key_name :
    (extract_resume_info (Except.ok "hello world") "resume text").lookup
        "raw_model_response" = none
    ∧ (extract_resume_info (Except.ok "hello world") "resume text").lookup
        "raw_response" = some "hello world" := by decide

/-- C6 (amended): for every model response with no braces and no
field-label match, `extract_resume_info` returns the record with all
five canonical fields `"N/A"` plus the raw response truncated to at
most 500 characters under the diagnostic key `raw_response`; a
successfully parsed non-empty mapping is returned verbatim, with no
diagnostic key added by the code. -/
theorem c6_malformed_degradation (r text : String) (hText : text ≠ "")
    (hNoBrace : ∀ c ∈ r.data, c ≠ '\x7b' ∧ c ≠ '\x7d')
    (hNoField : ∀ f ∈ fieldNames,
        findFieldL f.data (cleanedChain (pyStripList r.data)) = none) :
    extract_resume_info (Except.ok r) text = fallbackRecord r
    ∧ (pyTake 500 r).length ≤ 500
    ∧ pyGet (fallbackRecord r) "Full Name" "" = "N/A"
    ∧ pyGet (fallbackRecord r) "raw_response" "" = pyTake 500 r
    ∧ (∀ (r' text' : String) (m : ResumeRecord), text' ≠ "" →
        extract_json_from_response r' = some m → m ≠ [] →
        extract_resume_info (Except.ok r') text' = m) := by
  refine ⟨eri_failed hText (ejfr_none_of_noise r (fun c hc => (hNoBrace c hc).1) hNoField),
    ?_, rfl, rfl, fun _ _ _ hT hm hne => eri_parsed hT hm hne⟩
  show (r.data.take 500).length ≤ 500
  simp [List.length_take]

/-- Witness for C6 (amended) at the concrete response `hello world`. -/
theorem c6_malformed_degradation_witness :
    extract_resume_info (Except.ok "hello world") "resume sample"
      = fallbackRecord "hello world" :=
  (c6_malformed_degradation "hello world" "resume sample"
    (by decide) (by decide) (by decide)).1

/-- C7 counterexample: the markdown-stripping regex deletes every
occurrence of ` ```json ` followed by whitespace, including inside a
JSON string value, so fencing the object
`{"Full Name": "a```json b"}` changes the parsed value to `ab`:
fenced and unfenced parses differ. -/
theorem c7_fence_not_idempotent_with_ticks :
    extract_json_from_response (fenceJson "\x7b\"Full Name\": \"a```json b\"\x7d")
      ≠ extract_json_from_response "\x7b\"Full Name\": \"a```json b\"\x7d" := by decide

/-- C7 (amended): for every response `J` that contains no backtick,
looks like a bare JSON object after stripping, and parses, wrapping it
in a ` ```json ` fence and re-running `extract_json_from_response`
yields exactly the unfenced result (strategy 2 applies). -/
theorem c7_fence_idempotent_no_ticks (J : String) (m : ResumeRecord)
    (hTick : ∀ c ∈ J.data, c ≠ tickChar)
    (hHead : (pyStripList J.data).head? = some '\x7b')
    (hLast : endsBraceL (pyStripList J.data) = true)
    (hParse : jsonLoadsL (pyStripList J.data) = some m) :
    extract_json_from_response (fenceJson J) = extract_json_from_response J
    ∧ extract_json_from_response J = some m := by
  obtain ⟨t0, ht0⟩ : ∃ t0, pyStripList J.data = '\x7b' :: t0 := by
    cases h : pyStripList J.data with
    | nil => rw [h] at hHead; simp at hHead
    | cons c cs =>
      rw [h] at hHead
      simp only [List.head?_cons, Option.some.injEq] at hHead
      exact ⟨cs, by rw [hHead]⟩
  have hSB : startsBraceL (pyStripList J.data) = true := by
    rw [ht0]; simp [startsBraceL]
  have hst1 : stage1 (pyStripList J.data) = some m := stage1_some hSB hLast hParse
  have hunf : extract_json_from_response J = some m := ejfrL_of_stage1 hst1
  obtain ⟨c, t, hSL⟩ : ∃ c t, stripL J.data = c :: t := by
    cases h : stripL J.data with
    | nil =>
      have h0 : pyStripList J.data = [] := by unfold pyStripList; rw [h]; rfl
      rw [h0] at ht0; simp at ht0
    | cons c t => exact ⟨c, t, rfl⟩
  have hPSfence : pyStripList (fenceJsonL J.data) = fenceJsonL J.data :=
    pyStripList_fence J.data
  have hSBf : startsBraceL (fenceJsonL J.data) = false := rfl
  have hst1f : stage1 (pyStripList (fenceJsonL J.data)) = none := by
    rw [hPSfence]; exact stage1_none_of_noBrace hSBf
  have hclean : cleanedChain (pyStripList (fenceJsonL J.data)) = pyStripList J.data := by
    rw [hPSfence]; exact cleanedChain_fence hTick hSL
  have hfenced : extract_json_from_response (fenceJson J) = some m := by
    show ejfrL (fenceJsonL J.data) = some m
    exact ejfrL_of_stage2 hst1f (by rw [hclean]; exact hst1)
  exact ⟨by rw [hfenced, hunf], hunf⟩

/-- Witness for C7 (amended) at a concrete backtick-free object. -/
theorem c7_fence_idempotent_no_ticks_witness :
    extract_json_from_response (fenceJson "\x7b\"Email\": \"a\"\x7d")
      = extract_json_from_response "\x7b\"Email\": \"a\"\x7d" :=
  (c7_fence_idempotent_no_ticks "\x7b\"Email\": \"a\"\x7d" [("Email", "a")]
    (by decide) (by decide) (by decide) (by decide)).1

/-- C10: keys outside the five canonical field names survive into the
record returned by `extract_resume_info` (hence into the reply, which
carries that record verbatim), but never influence the persisted row,
which reads only the five canonical keys in fixed order. -/
theorem c10_extra_keys_passthrough :
    (∀ (text r : String) (m : ResumeRecord) (kv : String × String), text ≠ "" →
        extract_json_from_response r = some m → m ≠ [] → kv ∈ m →
        kv ∈ extract_resume_info (Except.ok r) text)
    ∧ (∀ (d : ResumeRecord) (k v : String), k ∉ sheetHeaders →
        buildRow ((k, v) :: d) = buildRow d) := by
  constructor
  · intro text r m kv hT hm hne hkv
    rw [eri_parsed hT hm hne]; exact hkv
  · intro d k v hk
    have h1 : ¬(k = "Full Name") := fun h => hk (by rw [h]; simp [sheetHeaders])
    have h2 : ¬(k = "Email") := fun h => hk (by rw [h]; simp [sheetHeaders])
    have h3 : ¬(k = "Phone Number") := fun h => hk (by rw [h]; simp [sheetHeaders])
    have h4 : ¬(k = "CGPA") := fun h => hk (by rw [h]; simp [sheetHeaders])
    have h5 : ¬(k = "BTech College Name") := fun h => hk (by rw [h]; simp [sheetHeaders])
    simp [buildRow, pyGet, h1, h2, h3, h4, h5]

/-- Witness for C10 at a concrete response with the extra key `Skills`. -/
theorem c10_extra_keys_passthrough_witness :
    ("Skills", "Java") ∈ extract_resume_info
        (Except.ok "\x7b\"Skills\": \"Java\", \"Email\": \"e@f.in\"\x7d") "resume sample"
    ∧ buildRow [("Skills", "Java")] = buildRow [] :=
  ⟨c10_extra_keys_passthrough.1 "resume sample" _
      [("Skills", "Java"), ("Email", "e@f.in")] ("Skills", "Java")
      (by decide) (by decide) (by decide) (by decide),
   c10_extra_keys_passthrough.2 [] "Skills" "Java" (by decide)⟩
